import Mathlib

/-!
Verification of the currency-exchange service (`src/app.py`) against its
specification.

The embedding models the Flask endpoints `convert_currency` and `get_rates`,
the memoizing rate fetcher `get_exchange_rates` (decorated with
`functools.lru_cache(maxsize=128)`), and the hourly bucket computation
`get_cache_key`.

Modelling conventions:
- `datetime` instants are natural numbers: microseconds since an arbitrary
  midnight-aligned epoch (naive Python datetimes form a uniform timeline, so
  field extraction is div/mod arithmetic; `isoformat` is injective on
  instants, so the cache key is modelled by the truncated instant itself).
- Python floats are modelled by `PyVal`: a rational number, `nan`, or a
  signed infinity, with Python's comparison and multiplication semantics on
  those values.
- The external pricing provider is modelled by a script (`feed`) of
  responses consumed one per outbound call; an exhausted script or a `none`
  entry models a request failure / non-success response, which the Python
  code turns into a `None` return.
- The `lru_cache` is an association list in most-recently-used-first order:
  a hit moves the entry to the front, a miss inserts at the front and drops
  the least recently used entry when the bound of 128 is exceeded.  The
  cached value is whatever the wrapped function returned, including `None`.
- Provider invocations are logged in `calls` so that call-counting
  properties can be stated.
-/

/-- `SUPPORTED_CURRENCIES` from `app.py`. -/
def SUPPORTED_CURRENCIES : List String :=
  ["GBP", "USD", "EUR", "JPY", "AUD", "CAD", "CHF", "CNY"]

/-- Lower-to-upper table for the ASCII letters that currency codes are
built from. -/
def upperTable : List (Char × Char) :=
  [('a','A'),('b','B'),('c','C'),('d','D'),('e','E'),('f','F'),('g','G'),
   ('h','H'),('i','I'),('j','J'),('k','K'),('l','L'),('m','M'),('n','N'),
   ('o','O'),('p','P'),('q','Q'),('r','R'),('s','S'),('t','T'),('u','U'),
   ('v','V'),('w','W'),('x','X'),('y','Y'),('z','Z')]

/-- Model of Python `str.upper()` on a single character (non-cased
characters are unchanged, as in Python). -/
def upperChar (c : Char) : Char :=
  match upperTable.find? (fun p => p.1 = c) with
  | some p => p.2
  | none => c

/-- Model of Python `str.upper()`. -/
def upperStr (s : String) : String := ⟨s.data.map upperChar⟩

/-- `validate_currency` from `app.py`: `currency.upper() in SUPPORTED_CURRENCIES`. -/
def validate_currency (currency : String) : Bool :=
  decide (upperStr currency ∈ SUPPORTED_CURRENCIES)

/-- The uppercase ASCII letters. -/
def uppercaseLetters : List Char :=
  ['A','B','C','D','E','F','G','H','I','J','K','L','M',
   'N','O','P','Q','R','S','T','U','V','W','X','Y','Z']

lemma upperChar_eq_or_mem (c : Char) :
    upperChar c = c ∨ upperChar c ∈ uppercaseLetters := by
  rcases h : upperTable.find? (fun p => p.1 = c) with _ | p <;>
    simp only [upperChar, h]
  · exact Or.inl trivial
  · refine Or.inr ?_
    have hp : p ∈ upperTable := List.mem_of_find?_eq_some h
    have hall : ∀ q ∈ upperTable, q.2 ∈ uppercaseLetters := by decide
    exact hall p hp

lemma upperChar_fixed_of_mem : ∀ c ∈ uppercaseLetters, upperChar c = c := by
  decide

lemma upperChar_idem (c : Char) : upperChar (upperChar c) = upperChar c := by
  rcases upperChar_eq_or_mem c with h | h
  · rw [h]; exact h
  · exact upperChar_fixed_of_mem _ h

lemma upperStr_idem (s : String) : upperStr (upperStr s) = upperStr s := by
  unfold upperStr
  refine congrArg String.mk ?_
  simp only [List.map_map]
  exact List.map_congr_left (fun c _ => upperChar_idem c)

/-- A validated code is itself in the supported list once uppercased. -/
lemma validate_upper_mem {c : String} (h : validate_currency (upperStr c) = true) :
    upperStr c ∈ SUPPORTED_CURRENCIES := by
  have := of_decide_eq_true h
  rwa [upperStr_idem] at this

lemma upperStr_empty_iff (s : String) : upperStr s = "" ↔ s = "" := by
  unfold upperStr
  constructor
  · intro h
    have : s.data.map upperChar = [] := congrArg String.data h
    rcases s with ⟨d⟩
    cases d with
    | nil => rfl
    | cons a l => simp at this
  · intro h; subst h; rfl

/- ------------------------------------------------------------------ -/
/- Time and the hourly cache bucket                                    -/
/- ------------------------------------------------------------------ -/

/-- `datetime.microsecond` of an instant (microseconds since epoch). -/
def microsecondOf (t : Nat) : Nat := t % 1000000

/-- `datetime.second` of an instant. -/
def secondOf (t : Nat) : Nat := t / 1000000 % 60

/-- `datetime.minute` of an instant. -/
def minuteOf (t : Nat) : Nat := t / 60000000 % 60

/-- `datetime.hour` of an instant. -/
def hourOf (t : Nat) : Nat := t / 3600000000 % 24

/-- `get_cache_key` from `app.py`:
`now - timedelta(minutes=now.minute % 60, seconds=now.second, microseconds=now.microsecond)`.
The returned instant stands for the `isoformat` string of that instant
(`isoformat` is injective, so equality of keys is equality of instants). -/
def get_cache_key (now : Nat) : Nat :=
  now - (minuteOf now % 60 * 60000000 + secondOf now * 1000000 + microsecondOf now)

/-- **C3.** For every instant `now`, the cache bucket key equals `now`
truncated to the start of its hour: minutes, seconds and microseconds are
zeroed while the hour (and everything coarser) is unchanged. -/
theorem cache_key_is_start_of_hour (now : Nat) :
    get_cache_key now = now - now % 3600000000 ∧
    minuteOf (get_cache_key now) = 0 ∧
    secondOf (get_cache_key now) = 0 ∧
    microsecondOf (get_cache_key now) = 0 ∧
    hourOf (get_cache_key now) = hourOf now ∧
    get_cache_key now / 3600000000 = now / 3600000000 := by
  unfold get_cache_key minuteOf secondOf microsecondOf hourOf
  omega

/- ------------------------------------------------------------------ -/
/- Python float values and the amount parser                           -/
/- ------------------------------------------------------------------ -/

/-- A Python float as produced by `float(amount_str)`: a finite rational,
`nan`, or a signed infinity. -/
inductive PyVal where
  | nan
  | inf
  | ninf
  | fin (q : ℚ)
deriving DecidableEq

/-- Python unary minus on a float. -/
def PyVal.negate : PyVal → PyVal
  | .nan => .nan
  | .inf => .ninf
  | .ninf => .inf
  | .fin q => .fin (-q)

/-- Python's `x <= 0` on a float (the test on line 120 of `app.py`):
false for `nan` by IEEE comparison semantics. -/
def pyLeZero : PyVal → Bool
  | .nan => false
  | .inf => false
  | .ninf => true
  | .fin q => decide (q ≤ 0)

/-- Python float multiplication by a finite rate. -/
def pyMulRate : PyVal → ℚ → PyVal
  | .nan, _ => .nan
  | .inf, r => if 0 < r then .inf else if r < 0 then .ninf else .nan
  | .ninf, r => if 0 < r then .ninf else if r < 0 then .inf else .nan
  | .fin q, r => .fin (q * r)

def isDigitChar (c : Char) : Bool := decide ('0' ≤ c) && decide (c ≤ '9')

def digitVal (c : Char) : Nat := c.toNat - 48

def digitsToNat (cs : List Char) : Nat :=
  cs.foldl (fun a c => 10 * a + digitVal c) 0

/-- Value of a decimal literal `intPart [. fracPart]` with at least one
digit overall. -/
def decimalValue (intPart fracPart : List Char) : ℚ :=
  (digitsToNat intPart : ℚ) + (digitsToNat fracPart : ℚ) / 10 ^ fracPart.length

/-- Parse an unsigned decimal literal (digits with an optional single
decimal point, at least one digit). -/
def parseDecimal (cs : List Char) : Option ℚ :=
  let intPart := cs.takeWhile isDigitChar
  match cs.dropWhile isDigitChar with
  | [] => if intPart = [] then none else some (decimalValue intPart [])
  | '.' :: frac =>
      if frac.all isDigitChar && !(intPart = [] && frac = []) then
        some (decimalValue intPart frac)
      else none
  | _ => none

/-- Unsigned part of the model of Python's builtin `float()`: the special
spellings `nan`, `inf` and `infinity`, else a decimal literal. -/
def pyFloatUnsigned (cs : List Char) : Option PyVal :=
  if cs = ['n','a','n'] then some .nan
  else if cs = ['i','n','f'] ∨ cs = ['i','n','f','i','n','i','t','y'] then some .inf
  else (parseDecimal cs).map .fin

/-- Model of Python's builtin `float(s)` on the fragment it is applied to
here: an optional sign followed by a decimal literal or one of the special
spellings `nan` / `inf` / `infinity`; anything else raises `ValueError`,
modelled as `none`.  (Surrounding whitespace, digit underscores, exponent
suffixes and upper-case special spellings, which Python also accepts, are
outside the modelled fragment; no claim depends on them.) -/
def pyFloat (s : String) : Option PyVal :=
  match s.data with
  | '+' :: rest => pyFloatUnsigned rest
  | '-' :: rest => (pyFloatUnsigned rest).map PyVal.negate
  | cs => pyFloatUnsigned cs

/-- Model of Python's `round(x, 2)`: round to 2 decimal places, ties to
even (`nan` and infinities round to themselves). -/
def roundHalfEven2 (q : ℚ) : ℚ :=
  let f : ℤ := ⌊q * 100⌋
  let r : ℚ := q * 100 - f
  let n : ℤ :=
    if r < 1/2 then f
    else if 1/2 < r then f + 1
    else if f % 2 = 0 then f else f + 1
  (n : ℚ) / 100

/-- `round(converted_amount, 2)` on a Python float. -/
def pyRound2 : PyVal → PyVal
  | .fin q => .fin (roundHalfEven2 q)
  | v => v

/- ------------------------------------------------------------------ -/
/- Rate tables and the  lru_cache  state machine                       -/
/- ------------------------------------------------------------------ -/

/-- A provider rate table: the `conversion_rates` JSON object, an ordered
association of currency code to rate. -/
abbrev RateTable : Type := List (String × ℚ)

/-- Python `rates[to_currency]` combined with the `to_currency in rates`
membership test: first matching key, `none` when absent. -/
def tableLookup : RateTable → String → Option ℚ
  | [], _ => none
  | p :: rest, c => if p.1 = c then some p.2 else tableLookup rest c

/-- An `lru_cache` key: the `(base_currency, timestamp_key)` argument pair
of `get_exchange_rates`. -/
abbrev CacheKey := String × Nat

/-- The mutable state of the process: the `lru_cache` memo of
`get_exchange_rates` (most recently used first; values are whatever the
function returned, including the `None` of a failed fetch), the script of
upcoming provider responses, and the log of provider invocations. -/
structure ServiceState where
  cache : List (CacheKey × Option RateTable)
  feed : List (Option RateTable)
  calls : List CacheKey
deriving DecidableEq

/-- Keys currently memoized, most recently used first. -/
def cacheKeys (s : ServiceState) : List CacheKey := s.cache.map Prod.fst

/-- Memo lookup: first entry with the given key. -/
def lookupCache : List (CacheKey × Option RateTable) → CacheKey → Option (Option RateTable)
  | [], _ => none
  | p :: rest, k => if p.1 = k then some p.2 else lookupCache rest k

/-- Remove every entry with the given key. -/
def removeKey : List (CacheKey × Option RateTable) → CacheKey → List (CacheKey × Option RateTable)
  | [], _ => []
  | p :: rest, k => if p.1 = k then removeKey rest k else p :: removeKey rest k

/-- On a hit, `lru_cache` moves the entry to the most-recently-used
position. -/
def touchEntry (c : List (CacheKey × Option RateTable)) (k : CacheKey)
    (v : Option RateTable) : List (CacheKey × Option RateTable) :=
  (k, v) :: removeKey c k

/-- On a miss, `lru_cache(maxsize=128)` inserts the new entry and evicts
the least recently used entry once the bound is exceeded. -/
def insertEntry (c : List (CacheKey × Option RateTable)) (k : CacheKey)
    (v : Option RateTable) : List (CacheKey × Option RateTable) :=
  let c' := (k, v) :: c
  if 128 < c'.length then c'.dropLast else c'

/-- `get_exchange_rates(base_currency, timestamp_key)` from `app.py`,
including its `lru_cache` wrapper.  On a memo hit the cached value is
returned with no provider call.  On a miss the provider is invoked (the
next scripted response is consumed; a missing or `none` response is the
`RequestException` / non-success case, which the function turns into
`None`), the returned value — success table or `None` — is memoized, and
the invocation is logged. -/
def get_exchange_rates (base_currency : String) (timestamp_key : Nat)
    (s : ServiceState) : Option RateTable × ServiceState :=
  match lookupCache s.cache (base_currency, timestamp_key) with
  | some v => (v, { s with cache := touchEntry s.cache (base_currency, timestamp_key) v })
  | none =>
      let resp : Option RateTable := (s.feed.head?).getD none
      (resp,
        { cache := insertEntry s.cache (base_currency, timestamp_key) resp
          feed := s.feed.tail
          calls := s.calls ++ [(base_currency, timestamp_key)] })

/- ------------------------------------------------------------------ -/
/- The  /api/v1/convert  endpoint                                      -/
/- ------------------------------------------------------------------ -/

/-- Outcome of `convert_currency` in `app.py`, one constructor per
`return` site: the 400 missing-parameters body, the 400 unsupported
currency body (carrying the offending code), the 400 invalid-amount body,
the 503 body, the 404 body (carrying the missing target code), and the 200
body with its fields (`from`, `to`, `exchange_rate`, `timestamp`). -/
inductive ConvertOutcome where
  | missingParams
  | unsupportedCurrency (code : String)
  | invalidAmount
  | ratesUnavailable
  | rateNotFound (code : String)
  | ok (fromCurrency : String) (fromAmount : PyVal) (toCurrency : String)
      (toAmount : PyVal) (exchange_rate : ℚ) (timestamp : Nat)
deriving DecidableEq

/-- `convert_currency` from `app.py` (the `/api/v1/convert` handler).
`now` is the request's wall-clock instant; the `datetime.now()` of the
response body (line 155) is taken at the same instant. -/
def convert_currency (from_currency to_currency amount_str : String)
    (now : Nat) (s : ServiceState) : ConvertOutcome × ServiceState :=
  let fromU := upperStr from_currency
  let toU := upperStr to_currency
  if fromU = "" ∨ toU = "" ∨ amount_str = "" then
    (.missingParams, s)
  else if ¬ validate_currency fromU then
    (.unsupportedCurrency fromU, s)
  else if ¬ validate_currency toU then
    (.unsupportedCurrency toU, s)
  else
    match pyFloat amount_str with
    | none => (.invalidAmount, s)
    | some amount =>
        if pyLeZero amount then (.invalidAmount, s)
        else
          let cache_key := get_cache_key now
          match get_exchange_rates fromU cache_key s with
          | (none, s') => (.ratesUnavailable, s')
          | (some rates, s') =>
              match tableLookup rates toU with
              | none => (.rateNotFound toU, s')
              | some exchange_rate =>
                  (.ok fromU amount toU (pyRound2 (pyMulRate amount exchange_rate))
                    exchange_rate now, s')

/- ------------------------------------------------------------------ -/
/- The  /api/v1/rates  endpoint                                        -/
/- ------------------------------------------------------------------ -/

/-- Outcome of `get_rates` in `app.py`, one constructor per `return`
site. -/
inductive RatesOutcome where
  | unsupportedCurrency (code : String)
  | ratesUnavailable
  | ok (base_currency : String) (rates : RateTable) (timestamp : Nat)
deriving DecidableEq

/-- `get_rates` from `app.py` (the `/api/v1/rates` handler).  A missing
`base_currency` query parameter is `none` and defaults to `'GBP'`. -/
def get_rates (base_param : Option String) (now : Nat) (s : ServiceState) :
    RatesOutcome × ServiceState :=
  let base_currency := upperStr (base_param.getD "GBP")
  if ¬ validate_currency base_currency then
    (.unsupportedCurrency base_currency, s)
  else
    let cache_key := get_cache_key now
    match get_exchange_rates base_currency cache_key s with
    | (none, s') => (.ratesUnavailable, s')
    | (some all_rates, s') =>
        (.ok base_currency
          (all_rates.filter (fun p => decide (p.1 ∈ SUPPORTED_CURRENCIES))) now, s')

/- ------------------------------------------------------------------ -/
/- Request sequences                                                   -/
/- ------------------------------------------------------------------ -/

/-- One inbound request to the service: a `/api/v1/convert` call or a
`/api/v1/rates` call, at a given wall-clock instant. -/
inductive Request where
  | conv (from_currency to_currency amount_str : String) (now : Nat)
  | rates (base_param : Option String) (now : Nat)

/-- The wall-clock instant of a request. -/
def Request.now : Request → Nat
  | .conv _ _ _ n => n
  | .rates _ n => n

/-- State transition of one request (the response body is discarded). -/
def stepRequest (r : Request) (s : ServiceState) : ServiceState :=
  match r with
  | .conv f t a n => (convert_currency f t a n s).2
  | .rates b n => (get_rates b n s).2

/-- Process a sequence of requests sequentially. -/
def runRequests : List Request → ServiceState → ServiceState
  | [], s => s
  | r :: rest, s => runRequests rest (stepRequest r s)

/-- A fresh service process: empty memo, no provider calls yet, with a
given script of provider responses. -/
def initState (feed : List (Option RateTable)) : ServiceState :=
  { cache := [], feed := feed, calls := [] }

/- ------------------------------------------------------------------ -/
/- Basic cache lemmas                                                  -/
/- ------------------------------------------------------------------ -/

lemma lookupCache_eq_none_iff (c : List (CacheKey × Option RateTable)) (k : CacheKey) :
    lookupCache c k = none ↔ k ∉ c.map Prod.fst := by
  induction c with
  | nil => simp [lookupCache]
  | cons p rest ih =>
      by_cases h : p.1 = k
      · simp [lookupCache, h]
      · simp [lookupCache, h, ih, Ne.symm h]

lemma mem_keys_of_lookupCache_eq_some {c : List (CacheKey × Option RateTable)}
    {k : CacheKey} {v : Option RateTable} (h : lookupCache c k = some v) :
    k ∈ c.map Prod.fst := by
  by_contra hk
  rw [← lookupCache_eq_none_iff] at hk
  rw [h] at hk
  exact Option.noConfusion hk

lemma removeKey_sublist (c : List (CacheKey × Option RateTable)) (k : CacheKey) :
    (removeKey c k).Sublist c := by
  induction c with
  | nil => simp [removeKey]
  | cons p rest ih =>
      by_cases h : p.1 = k
      · simp only [removeKey, if_pos h]
        exact ih.cons p
      · simp only [removeKey, if_neg h]
        exact ih.cons₂ p

lemma mem_keys_removeKey {c : List (CacheKey × Option RateTable)} {k x : CacheKey} :
    x ∈ (removeKey c k).map Prod.fst ↔ x ∈ c.map Prod.fst ∧ x ≠ k := by
  induction c with
  | nil => simp [removeKey]
  | cons p rest ih =>
      by_cases h : p.1 = k
      · rw [show removeKey (p :: rest) k = removeKey rest k by
            simp [removeKey, h], ih]
        simp only [List.map_cons, List.mem_cons, h]
        constructor
        · rintro ⟨hx, hne⟩; exact ⟨Or.inr hx, hne⟩
        · rintro ⟨hx | hx, hne⟩
          · exact absurd hx hne
          · exact ⟨hx, hne⟩
      · rw [show removeKey (p :: rest) k = p :: removeKey rest k by
            simp [removeKey, h]]
        simp only [List.map_cons, List.mem_cons, ih]
        constructor
        · rintro (rfl | ⟨hx, hne⟩)
          · exact ⟨Or.inl rfl, h⟩
          · exact ⟨Or.inr hx, hne⟩
        · rintro ⟨rfl | hx, hne⟩
          · exact Or.inl rfl
          · exact Or.inr ⟨hx, hne⟩

lemma nodup_keys_removeKey {c : List (CacheKey × Option RateTable)} {k : CacheKey}
    (h : (c.map Prod.fst).Nodup) : ((removeKey c k).map Prod.fst).Nodup :=
  (((removeKey_sublist c k).map Prod.fst).nodup h)

lemma insertEntry_of_small {c : List (CacheKey × Option RateTable)} {k : CacheKey}
    {v : Option RateTable} (h : c.length < 128) :
    insertEntry c k v = (k, v) :: c := by
  unfold insertEntry
  simp only [List.length_cons]
  rw [if_neg (by omega)]

lemma lookupCache_insertEntry (c : List (CacheKey × Option RateTable))
    (k : CacheKey) (v : Option RateTable) :
    lookupCache (insertEntry c k v) k = some v := by
  unfold insertEntry
  simp only [List.length_cons]
  split
  · rename_i hlen
    cases c with
    | nil => simp at hlen
    | cons p rest =>
        show lookupCache ((k, v) :: (p :: rest).dropLast) k = some v
        simp [lookupCache]
  · simp [lookupCache]

lemma ger_hit {s : ServiceState} {b : String} {tk : Nat} {v : Option RateTable}
    (h : lookupCache s.cache (b, tk) = some v) :
    get_exchange_rates b tk s =
      (v, { s with cache := touchEntry s.cache (b, tk) v }) := by
  unfold get_exchange_rates
  rw [h]

lemma ger_miss {s : ServiceState} {b : String} {tk : Nat}
    (h : lookupCache s.cache (b, tk) = none) :
    get_exchange_rates b tk s =
      ((s.feed.head?).getD none,
        { cache := insertEntry s.cache (b, tk) ((s.feed.head?).getD none)
          feed := s.feed.tail
          calls := s.calls ++ [(b, tk)] }) := by
  unfold get_exchange_rates
  rw [h]

/-- After any `get_exchange_rates` call, the returned value is memoized
under its key (whether it was a hit, a fresh success, or a fresh failure). -/
lemma lookupCache_after_ger (b : String) (tk : Nat) (s : ServiceState) :
    lookupCache ((get_exchange_rates b tk s).2).cache (b, tk) =
      some ((get_exchange_rates b tk s).1) := by
  rcases h : lookupCache s.cache (b, tk) with _ | v
  · rw [ger_miss h]
    exact lookupCache_insertEntry _ _ _
  · rw [ger_hit h]
    simp [touchEntry, lookupCache]

/- ------------------------------------------------------------------ -/
/- Branch lemmas for the convert handler                               -/
/- ------------------------------------------------------------------ -/

lemma convert_missing {f t a : String} {n : Nat} {s : ServiceState}
    (h : upperStr f = "" ∨ upperStr t = "" ∨ a = "") :
    convert_currency f t a n s = (.missingParams, s) := by
  unfold convert_currency
  rw [if_pos h]

lemma convert_unsupported_from {f t a : String} {n : Nat} {s : ServiceState}
    (h1 : ¬ (upperStr f = "" ∨ upperStr t = "" ∨ a = ""))
    (h2 : validate_currency (upperStr f) = false) :
    convert_currency f t a n s = (.unsupportedCurrency (upperStr f), s) := by
  unfold convert_currency
  rw [if_neg h1, if_pos (by simp [h2])]

lemma convert_unsupported_to {f t a : String} {n : Nat} {s : ServiceState}
    (h1 : ¬ (upperStr f = "" ∨ upperStr t = "" ∨ a = ""))
    (h2 : validate_currency (upperStr f) = true)
    (h3 : validate_currency (upperStr t) = false) :
    convert_currency f t a n s = (.unsupportedCurrency (upperStr t), s) := by
  unfold convert_currency
  rw [if_neg h1, if_neg (by simp [h2]), if_pos (by simp [h3])]

lemma convert_amount_unparsable {f t a : String} {n : Nat} {s : ServiceState}
    (h1 : ¬ (upperStr f = "" ∨ upperStr t = "" ∨ a = ""))
    (h2 : validate_currency (upperStr f) = true)
    (h3 : validate_currency (upperStr t) = true)
    (h4 : pyFloat a = none) :
    convert_currency f t a n s = (.invalidAmount, s) := by
  unfold convert_currency
  rw [if_neg h1, if_neg (by simp [h2]), if_neg (by simp [h3]), h4]

lemma convert_amount_nonpositive {f t a : String} {n : Nat} {s : ServiceState}
    {v : PyVal}
    (h1 : ¬ (upperStr f = "" ∨ upperStr t = "" ∨ a = ""))
    (h2 : validate_currency (upperStr f) = true)
    (h3 : validate_currency (upperStr t) = true)
    (h4 : pyFloat a = some v) (h5 : pyLeZero v = true) :
    convert_currency f t a n s = (.invalidAmount, s) := by
  unfold convert_currency
  rw [if_neg h1, if_neg (by simp [h2]), if_neg (by simp [h3]), h4]
  simp only [h5, if_pos]

lemma convert_fetch {f t a : String} {n : Nat} {s : ServiceState} {v : PyVal}
    (h1 : ¬ (upperStr f = "" ∨ upperStr t = "" ∨ a = ""))
    (h2 : validate_currency (upperStr f) = true)
    (h3 : validate_currency (upperStr t) = true)
    (h4 : pyFloat a = some v) (h5 : pyLeZero v = false) :
    convert_currency f t a n s =
      match get_exchange_rates (upperStr f) (get_cache_key n) s with
      | (none, s') => (.ratesUnavailable, s')
      | (some rates, s') =>
          match tableLookup rates (upperStr t) with
          | none => (.rateNotFound (upperStr t), s')
          | some exchange_rate =>
              (.ok (upperStr f) v (upperStr t)
                (pyRound2 (pyMulRate v exchange_rate)) exchange_rate n, s') := by
  unfold convert_currency
  rw [if_neg h1, if_neg (by simp [h2]), if_neg (by simp [h3]), h4]
  simp only [h5, Bool.false_eq_true, if_false]

/-- The handler state after a convert request: unchanged on a validation
failure, otherwise whatever `get_exchange_rates` left behind. -/
lemma convert_state (f t a : String) (n : Nat) (s : ServiceState) :
    (convert_currency f t a n s).2 = s ∨
    (validate_currency (upperStr f) = true ∧
      (convert_currency f t a n s).2 =
        (get_exchange_rates (upperStr f) (get_cache_key n) s).2) := by
  by_cases h1 : upperStr f = "" ∨ upperStr t = "" ∨ a = ""
  · rw [convert_missing h1]; exact Or.inl rfl
  by_cases h2 : validate_currency (upperStr f) = true
  case neg =>
    rw [convert_unsupported_from h1 (by simpa using h2)]
    exact Or.inl rfl
  by_cases h3 : validate_currency (upperStr t) = true
  case neg =>
    rw [convert_unsupported_to h1 h2 (by simpa using h3)]
    exact Or.inl rfl
  rcases h4 : pyFloat a with _ | v
  · rw [convert_amount_unparsable h1 h2 h3 h4]; exact Or.inl rfl
  cases h5 : pyLeZero v with
  | true => rw [convert_amount_nonpositive h1 h2 h3 h4 h5]; exact Or.inl rfl
  | false =>
      refine Or.inr ⟨h2, ?_⟩
      rw [convert_fetch h1 h2 h3 h4 h5]
      rcases hger : get_exchange_rates (upperStr f) (get_cache_key n) s with ⟨r, s'⟩
      rcases r with _ | rates
      · simp [hger]
      · rcases htl : tableLookup rates (upperStr t) with _ | rate <;> simp [hger, htl]

/-- The handler state after a rates request: unchanged on a validation
failure, otherwise whatever `get_exchange_rates` left behind. -/
lemma rates_state (b : Option String) (n : Nat) (s : ServiceState) :
    (get_rates b n s).2 = s ∨
    (validate_currency (upperStr (b.getD "GBP")) = true ∧
      (get_rates b n s).2 =
        (get_exchange_rates (upperStr (b.getD "GBP")) (get_cache_key n) s).2) := by
  unfold get_rates
  by_cases h : validate_currency (upperStr (b.getD "GBP")) = true
  · refine Or.inr ⟨h, ?_⟩
    rw [if_neg (by simp [h])]
    rcases hger : get_exchange_rates (upperStr (b.getD "GBP")) (get_cache_key n) s
      with ⟨r, s'⟩
    rcases r with _ | rates <;> simp [hger]
  · rw [if_pos (by simpa using h)]
    exact Or.inl rfl

/- ------------------------------------------------------------------ -/
/- The call-counting invariant                                         -/
/- ------------------------------------------------------------------ -/

/-- Invariant of a run whose requests all fall in bucket `B`, starting
from a fresh process: every logged provider call is memoized, no key was
ever fetched twice, memo keys are distinct, and every memo key is a
supported currency paired with `B`. -/
def GoodState (B : Nat) (s : ServiceState) : Prop :=
  s.calls.Nodup ∧
  (∀ k ∈ s.calls, k ∈ cacheKeys s) ∧
  (cacheKeys s).Nodup ∧
  (∀ k ∈ cacheKeys s, k.1 ∈ SUPPORTED_CURRENCIES ∧ k.2 = B)

lemma goodState_init (B : Nat) (feed : List (Option RateTable)) :
    GoodState B (initState feed) := by
  refine ⟨List.nodup_nil, ?_, ?_, ?_⟩ <;> simp [initState, cacheKeys]

/-- In a good state at most 8 keys are memoized, so the LRU bound of 128
is never reached. -/
lemma cache_length_le_eight {B : Nat} {s : ServiceState} (h : GoodState B s) :
    s.cache.length ≤ 8 := by
  obtain ⟨-, -, h3, h4⟩ := h
  have hsub : cacheKeys s ⊆ SUPPORTED_CURRENCIES.map (fun c => (c, B)) := by
    intro k hk
    rcases h4 k hk with ⟨hc, hB⟩
    refine List.mem_map.mpr ⟨k.1, hc, ?_⟩
    exact Prod.ext rfl hB.symm
  have := (h3.subperm hsub).length_le
  simpa [cacheKeys] using this

lemma ger_preserves_good {B : Nat} {b : String} {s : ServiceState}
    (hb : b ∈ SUPPORTED_CURRENCIES) (h : GoodState B s) :
    GoodState B (get_exchange_rates b B s).2 := by
  obtain ⟨h1, h2, h3, h4⟩ := h
  rcases hl : lookupCache s.cache (b, B) with _ | v
  · -- miss: fresh fetch, memoized and logged
    have hk : (b, B) ∉ cacheKeys s := (lookupCache_eq_none_iff _ _).mp hl
    have hsmall : s.cache.length < 128 :=
      lt_of_le_of_lt (cache_length_le_eight ⟨h1, h2, h3, h4⟩) (by norm_num)
    rw [ger_miss hl]
    have hkeys : cacheKeys
        { cache := insertEntry s.cache (b, B) ((s.feed.head?).getD none)
          feed := s.feed.tail
          calls := s.calls ++ [(b, B)] } = (b, B) :: cacheKeys s := by
      simp [cacheKeys, insertEntry_of_small hsmall]
    refine ⟨?_, ?_, ?_, ?_⟩
    · have hnotin : (b, B) ∉ s.calls := fun hc => hk (h2 _ hc)
      simp [List.nodup_append, h1, hnotin]
    · intro k hkc
      rw [hkeys]
      rcases List.mem_append.mp hkc with hk' | hk'
      · exact List.mem_cons_of_mem _ (h2 _ hk')
      · simp only [List.mem_singleton] at hk'
        subst hk'
        exact List.mem_cons_self _ _
    · rw [hkeys]
      exact List.Nodup.cons hk h3
    · intro k hkc
      rw [hkeys] at hkc
      rcases List.mem_cons.mp hkc with rfl | hk'
      · exact ⟨hb, rfl⟩
      · exact h4 _ hk'
  · -- hit: entry moved to the front, no provider call
    have hkmem : (b, B) ∈ cacheKeys s := mem_keys_of_lookupCache_eq_some hl
    rw [ger_hit hl]
    have hkeys : cacheKeys { s with cache := touchEntry s.cache (b, B) v } =
        (b, B) :: (removeKey s.cache (b, B)).map Prod.fst := by
      simp [cacheKeys, touchEntry]
    refine ⟨h1, ?_, ?_, ?_⟩
    · intro k hkc
      rw [hkeys]
      rcases eq_or_ne k (b, B) with rfl | hne
      · exact List.mem_cons_self _ _
      · exact List.mem_cons_of_mem _
          (mem_keys_removeKey.mpr ⟨h2 _ hkc, hne⟩)
    · rw [hkeys]
      refine List.Nodup.cons ?_ (nodup_keys_removeKey h3)
      intro hmem
      exact (mem_keys_removeKey.mp hmem).2 rfl
    · intro k hkc
      rw [hkeys] at hkc
      rcases List.mem_cons.mp hkc with rfl | hk'
      · exact h4 _ hkmem
      · exact h4 _ (mem_keys_removeKey.mp hk').1

lemma step_preserves_good {B : Nat} {r : Request} {s : ServiceState}
    (hn : get_cache_key r.now = B) (h : GoodState B s) :
    GoodState B (stepRequest r s) := by
  cases r with
  | conv f t a n =>
      show GoodState B (convert_currency f t a n s).2
      rcases convert_state f t a n s with hs | ⟨hv, hs⟩
      · rwa [hs]
      · rw [hs]
        have hn' : get_cache_key n = B := hn
        rw [hn']
        exact ger_preserves_good (validate_upper_mem hv) h
  | rates b n =>
      show GoodState B (get_rates b n s).2
      rcases rates_state b n s with hs | ⟨hv, hs⟩
      · rwa [hs]
      · rw [hs]
        have hn' : get_cache_key n = B := hn
        rw [hn']
        exact ger_preserves_good (validate_upper_mem hv) h

lemma run_preserves_good {B : Nat} {reqs : List Request} {s : ServiceState}
    (hB : ∀ r ∈ reqs, get_cache_key r.now = B) (h : GoodState B s) :
    GoodState B (runRequests reqs s) := by
  induction reqs generalizing s with
  | nil => exact h
  | cons r rest ih =>
      exact ih (fun r' hr' => hB r' (List.mem_cons_of_mem _ hr'))
        (step_preserves_good (hB r (List.mem_cons_self _ _)) h)

lemma count_le_one_of_nodup (l : List CacheKey) (h : l.Nodup) (k : CacheKey) :
    l.count k ≤ 1 := by
  induction l with
  | nil => simp
  | cons a l ih =>
      rcases List.nodup_cons.mp h with ⟨ha, hl⟩
      rw [List.count_cons]
      by_cases hk : a = k
      · subst hk
        have h0 : l.count a = 0 := List.count_eq_zero.mpr ha
        simp [h0]
      · have hbeq : (a == k) = false := by
          simp [hk]
        simp [hbeq, ih hl]

/-- **C2.** Under any sequence of sequential convert/rates requests whose
wall-clock instants all fall in the same hour bucket, a fresh service
invokes the provider at most once per `(base currency, bucket)` key: the
call log of the run contains each key at most once, so every request after
the first for a key is served from the cache with no provider call. -/
theorem provider_called_at_most_once_per_bucket
    (reqs : List Request) (feed : List (Option RateTable)) (B : Nat)
    (hB : ∀ r ∈ reqs, get_cache_key r.now = B) (k : CacheKey) :
    ((runRequests reqs (initState feed)).calls.count k) ≤ 1 :=
  count_le_one_of_nodup _ (run_preserves_good hB (goodState_init B feed)).1 k

/- ------------------------------------------------------------------ -/
/- Evaluation lemmas for concrete scenarios                            -/
/- ------------------------------------------------------------------ -/

lemma decimalValue_100 : decimalValue ['1','0','0'] [] = 100 := by
  have h1 : digitsToNat ['1','0','0'] = 100 := by decide
  have h2 : digitsToNat ([] : List Char) = 0 := by decide
  simp [decimalValue, h1, h2]

lemma pyFloat_100 : pyFloat "100" = some (.fin 100) := by
  have h : pyFloat "100" = some (.fin (decimalValue ['1','0','0'] [])) := rfl
  rw [h, decimalValue_100]

lemma pyLeZero_100 : pyLeZero (.fin 100) = false := by
  simp [pyLeZero]

lemma decimalValue_5 : decimalValue ['5'] [] = 5 := by
  have h1 : digitsToNat ['5'] = 5 := by decide
  have h2 : digitsToNat ([] : List Char) = 0 := by decide
  simp [decimalValue, h1, h2]

lemma pyFloat_neg5 : pyFloat "-5" = some (.fin (-5)) := by
  have h : pyFloat "-5" = some (.fin (-(decimalValue ['5'] []))) := rfl
  rw [h, decimalValue_5]

lemma pyRound2_product : pyRound2 (pyMulRate (.fin 100) (127/100)) = .fin 127 := by
  show PyVal.fin (roundHalfEven2 (100 * (127/100))) = .fin 127
  have h : (100 : ℚ) * (127/100) = 127 := by norm_num
  rw [h]
  simp only [roundHalfEven2]
  norm_num

/-- The stub rate table of the specification scenarios. -/
def stubTable : RateTable := [("USD", 127/100)]

/-- Memo state after one successful `GBP` fetch in bucket `0`. -/
def stateAfterFirst : ServiceState :=
  { cache := [(("GBP", 0), some stubTable)], feed := [], calls := [("GBP", 0)] }

/-- Full evaluation of the specification scenario
`convert("GBP","USD",100)` with stub rate `USD = 1.27` on a fresh
service. -/
lemma first_call_eval :
    convert_currency "GBP" "USD" "100" 0 (initState [some stubTable]) =
      (.ok "GBP" (.fin 100) "USD" (.fin 127) (127/100) 0, stateAfterFirst) := by
  rw [convert_fetch (f := "GBP") (t := "USD") (a := "100") (n := 0)
    (s := initState [some stubTable])
    (by decide) (by decide) (by decide) pyFloat_100 pyLeZero_100]
  have hger : get_exchange_rates (upperStr "GBP") (get_cache_key 0)
      (initState [some stubTable]) = (some stubTable, stateAfterFirst) := rfl
  rw [hger]
  show (ConvertOutcome.ok (upperStr "GBP") (.fin 100) (upperStr "USD")
      (pyRound2 (pyMulRate (.fin 100) (127/100))) (127/100) 0, stateAfterFirst) = _
  rw [pyRound2_product]
  rfl

/- ------------------------------------------------------------------ -/
/- Inversion of a successful conversion                                -/
/- ------------------------------------------------------------------ -/

/-- A successful convert response determines every branch condition on
its path: the inputs were valid, the fetch succeeded, the target rate was
found, and each response field is the corresponding computed value (in
particular the timestamp is the request instant). -/
lemma convert_ok_inversion {f t a : String} {n : Nat} {s : ServiceState}
    {fc tc : String} {fa ta : PyVal} {r : ℚ} {ts : Nat}
    (h : (convert_currency f t a n s).1 = .ok fc fa tc ta r ts) :
    ∃ v T, ¬ (upperStr f = "" ∨ upperStr t = "" ∨ a = "") ∧
      validate_currency (upperStr f) = true ∧
      validate_currency (upperStr t) = true ∧
      pyFloat a = some v ∧ pyLeZero v = false ∧
      (get_exchange_rates (upperStr f) (get_cache_key n) s).1 = some T ∧
      tableLookup T (upperStr t) = some r ∧
      fc = upperStr f ∧ fa = v ∧ tc = upperStr t ∧
      ta = pyRound2 (pyMulRate v r) ∧ ts = n := by
  by_cases h1 : upperStr f = "" ∨ upperStr t = "" ∨ a = ""
  · rw [convert_missing h1] at h; exact absurd h (by simp)
  by_cases h2 : validate_currency (upperStr f) = true
  case neg =>
    rw [convert_unsupported_from h1 (by simpa using h2)] at h
    exact absurd h (by simp)
  by_cases h3 : validate_currency (upperStr t) = true
  case neg =>
    rw [convert_unsupported_to h1 h2 (by simpa using h3)] at h
    exact absurd h (by simp)
  rcases h4 : pyFloat a with _ | v
  · rw [convert_amount_unparsable h1 h2 h3 h4] at h
    exact absurd h (by simp)
  cases h5 : pyLeZero v with
  | true =>
      rw [convert_amount_nonpositive h1 h2 h3 h4 h5] at h
      exact absurd h (by simp)
  | false =>
      rw [convert_fetch h1 h2 h3 h4 h5] at h
      rcases hger : get_exchange_rates (upperStr f) (get_cache_key n) s with ⟨rv, s'⟩
      rcases rv with _ | T
      · simp only [hger] at h
        exact absurd h (by simp)
      · rcases htl : tableLookup T (upperStr t) with _ | rate
        · simp only [hger, htl] at h
          exact absurd h (by simp)
        · simp only [hger, htl] at h
          have h' : ConvertOutcome.ok (upperStr f) v (upperStr t)
              (pyRound2 (pyMulRate v rate)) rate n =
              ConvertOutcome.ok fc fa tc ta r ts := h
          injection h' with hfc hfa htc hta hr hts
          subst hfc; subst hfa; subst htc; subst hta; subst hr; subst hts
          exact ⟨v, T, h1, h2, h3, rfl, h5, rfl, htl,
            rfl, rfl, rfl, rfl, rfl⟩

/- ------------------------------------------------------------------ -/
/- C6: rounding of the displayed amount only                           -/
/- ------------------------------------------------------------------ -/

lemma validate_nonempty {c : String}
    (h : validate_currency (upperStr c) = true) : upperStr c ≠ "" := by
  intro he
  rw [he] at h
  exact absurd h (by decide)

lemma roundHalfEven2_127 : roundHalfEven2 (100 * (127/100)) = 127 := by
  have h : (100 : ℚ) * (127/100) = 127 := by norm_num
  rw [h]
  simp only [roundHalfEven2]
  norm_num

/-- **C6.** On a valid conversion — supported source and target, a
strictly positive finite amount, a fetch that yields a table containing
the target — the response's target amount is `amount * rate[toCurrency]`
rounded to 2 decimal places, while the returned `exchange_rate` is the
unrounded table rate. -/
theorem convert_ok_rounds_display_only
    (f t a : String) (n : Nat) (s : ServiceState) (q r : ℚ) (T : RateTable)
    (ha : a ≠ "")
    (hf : validate_currency (upperStr f) = true)
    (ht : validate_currency (upperStr t) = true)
    (hq : pyFloat a = some (.fin q)) (hpos : 0 < q)
    (hT : (get_exchange_rates (upperStr f) (get_cache_key n) s).1 = some T)
    (hr : tableLookup T (upperStr t) = some r) :
    (convert_currency f t a n s).1 =
      .ok (upperStr f) (.fin q) (upperStr t) (.fin (roundHalfEven2 (q * r))) r n := by
  have h1 : ¬ (upperStr f = "" ∨ upperStr t = "" ∨ a = "") := by
    push_neg
    exact ⟨validate_nonempty hf, validate_nonempty ht, ha⟩
  have h5 : pyLeZero (.fin q) = false := by
    simp [pyLeZero, not_le, hpos]
  rw [convert_fetch h1 hf ht hq h5]
  rcases hger : get_exchange_rates (upperStr f) (get_cache_key n) s with ⟨rv, s'⟩
  have hrv : rv = some T := by rw [hger] at hT; exact hT
  subst hrv
  simp only [hger, hr]
  rfl

/-- Witness for C6: the specification scenario `convert("GBP","USD",100)`
with stub rate `USD = 1.27` answers target amount `127.00` and unrounded
rate `1.27`. -/
theorem convert_ok_rounds_display_only_witness :
    (0 : ℚ) < 100 ∧
    (convert_currency "GBP" "USD" "100" 0 (initState [some stubTable])).1 =
      .ok "GBP" (.fin 100) "USD" (.fin 127) (127/100) 0 := by
  refine ⟨by norm_num, ?_⟩
  have h := convert_ok_rounds_display_only "GBP" "USD" "100" 0
    (initState [some stubTable]) 100 (127/100) stubTable
    (by decide) (by decide) (by decide) pyFloat_100 (by norm_num) rfl rfl
  rw [h, roundHalfEven2_127]
  rfl

/- ------------------------------------------------------------------ -/
/- C8: idempotence within one bucket                                   -/
/- ------------------------------------------------------------------ -/

/-- **C8.** `convert` is idempotent within one cache bucket: if a call
returns a success, an immediately following call with the same inputs
whose instant falls in the same bucket returns a success with the same
currencies, amounts and exchange rate (only the response timestamp is the
second request's instant), because the second call is served from the same
cached rate table. -/
theorem convert_idempotent_within_bucket
    (f t a : String) (n1 n2 : Nat) (s : ServiceState)
    (fc tc : String) (fa ta : PyVal) (r : ℚ) (ts : Nat)
    (hb : get_cache_key n2 = get_cache_key n1)
    (h1 : (convert_currency f t a n1 s).1 = .ok fc fa tc ta r ts) :
    (convert_currency f t a n2 (convert_currency f t a n1 s).2).1 =
      .ok fc fa tc ta r n2 := by
  obtain ⟨v, T, hne, h2, h3, h4, h5, hT, htl, rfl, rfl, rfl, rfl, hts⟩ :=
    convert_ok_inversion h1
  subst hts
  have hafter := lookupCache_after_ger (upperStr f) (get_cache_key ts) s
  rw [hT] at hafter
  have hstate : (convert_currency f t a ts s).2 =
      (get_exchange_rates (upperStr f) (get_cache_key ts) s).2 := by
    rw [convert_fetch hne h2 h3 h4 h5]
    rcases hger : get_exchange_rates (upperStr f) (get_cache_key ts) s with ⟨rv, s'⟩
    have hrv : rv = some T := by rw [hger] at hT; exact hT
    subst hrv
    simp only [htl]
  rw [convert_fetch hne h2 h3 h4 h5, hstate, hb,
    ger_hit hafter]
  simp only [htl]

/-- Witness for C8: the `GBP -> USD` scenario repeated 30 minutes later in
the same hour bucket returns the same rate and target amount. -/
theorem convert_idempotent_within_bucket_witness :
    get_cache_key 1800000000 = get_cache_key 0 ∧
    (convert_currency "GBP" "USD" "100" 0 (initState [some stubTable])).1 =
      .ok "GBP" (.fin 100) "USD" (.fin 127) (127/100) 0 ∧
    (convert_currency "GBP" "USD" "100" 1800000000
        (convert_currency "GBP" "USD" "100" 0 (initState [some stubTable])).2).1 =
      .ok "GBP" (.fin 100) "USD" (.fin 127) (127/100) 1800000000 := by
  have hfirst : (convert_currency "GBP" "USD" "100" 0
      (initState [some stubTable])).1 =
      .ok "GBP" (.fin 100) "USD" (.fin 127) (127/100) 0 := by
    rw [first_call_eval]
  exact ⟨by decide, hfirst,
    convert_idempotent_within_bucket "GBP" "USD" "100" 0 1800000000
      (initState [some stubTable]) "GBP" "USD" (.fin 100) (.fin 127)
      (127/100) 0 (by decide) hfirst⟩

/- ------------------------------------------------------------------ -/
/- C9: the response timestamp                                          -/
/- ------------------------------------------------------------------ -/

/-- **C9 (amended).** Every successful convert response carries the
instant at which the response is constructed (`datetime.now()` at line
155), not the instant at which the rate table it used was fetched. -/
theorem convert_timestamp_is_response_instant
    (f t a : String) (n : Nat) (s : ServiceState) (fc tc : String)
    (fa ta : PyVal) (r : ℚ) (ts : Nat)
    (h : (convert_currency f t a n s).1 = .ok fc fa tc ta r ts) : ts = n := by
  obtain ⟨v, T, -, -, -, -, -, -, -, -, -, -, -, hts⟩ := convert_ok_inversion h
  exact hts

/-- Witness for C9 (amended): the scenario call at instant `0` carries
timestamp `0`. -/
theorem convert_timestamp_is_response_instant_witness :
    (convert_currency "GBP" "USD" "100" 0 (initState [some stubTable])).1 =
      .ok "GBP" (.fin 100) "USD" (.fin 127) (127/100) 0 ∧ (0 : Nat) = 0 := by
  have hfirst : (convert_currency "GBP" "USD" "100" 0
      (initState [some stubTable])).1 =
      .ok "GBP" (.fin 100) "USD" (.fin 127) (127/100) 0 := by
    rw [first_call_eval]
  exact ⟨hfirst, convert_timestamp_is_response_instant "GBP" "USD" "100" 0
    (initState [some stubTable]) "GBP" "USD" (.fin 100) (.fin 127)
    (127/100) 0 hfirst⟩

/-- Full evaluation of the same conversion repeated at instant
`1800000000` (30 minutes later, same hour bucket): it is served from the
cache — the call log stays `[("GBP", 0)]` — and the response timestamp is
the second request's instant. -/
lemma second_call_eval :
    convert_currency "GBP" "USD" "100" 1800000000 stateAfterFirst =
      (.ok "GBP" (.fin 100) "USD" (.fin 127) (127/100) 1800000000,
        stateAfterFirst) := by
  have hger2 : get_exchange_rates (upperStr "GBP") (get_cache_key 1800000000)
      stateAfterFirst = (some stubTable, stateAfterFirst) := rfl
  rw [convert_fetch (by decide) (by decide) (by decide) pyFloat_100
    pyLeZero_100, hger2]
  show (ConvertOutcome.ok (upperStr "GBP") (.fin 100) (upperStr "USD")
      (pyRound2 (pyMulRate (.fin 100) (127/100))) (127/100) 1800000000,
      stateAfterFirst) = _
  rw [pyRound2_product]
  rfl

/-- **C9 (counterexample).** The rate table serving the second call of the
scenario was produced by the only provider call, made during the first
request at instant `0` (the call log after both requests is still
`[("GBP", 0)]` and the provider script was consumed during the first
request); yet the second response carries timestamp `1800000000`, the
response-construction instant, not the snapshot instant `0`. -/
theorem convert_timestamp_cex :
    convert_currency "GBP" "USD" "100" 0 (initState [some stubTable]) =
      (.ok "GBP" (.fin 100) "USD" (.fin 127) (127/100) 0, stateAfterFirst) ∧
    stateAfterFirst.calls = [("GBP", 0)] ∧
    stateAfterFirst.feed = [] ∧
    get_cache_key 1800000000 = get_cache_key 0 ∧
    (convert_currency "GBP" "USD" "100" 1800000000 stateAfterFirst).1 =
      .ok "GBP" (.fin 100) "USD" (.fin 127) (127/100) 1800000000 ∧
    (convert_currency "GBP" "USD" "100" 1800000000 stateAfterFirst).2.calls =
      [("GBP", 0)] ∧
    (1800000000 : Nat) ≠ 0 := by
  refine ⟨first_call_eval, rfl, rfl, by decide, ?_, ?_, by decide⟩
  · rw [second_call_eval]
  · rw [second_call_eval]
    rfl

/- ------------------------------------------------------------------ -/
/- C1: a provider failure is memoized                                  -/
/- ------------------------------------------------------------------ -/

/-- **C1 (amended).** When a fetch for a `(base currency, bucket)` key
misses the memo and the provider fails, the `None` failure **is** stored
under that key by `lru_cache`, and a subsequent request for the same key
is served the cached failure with no further provider call: the call log
and the provider script are left untouched by the retry. -/
theorem provider_failure_is_cached
    (b : String) (tk : Nat) (s : ServiceState)
    (hmiss : lookupCache s.cache (b, tk) = none)
    (hfail : (s.feed.head?).getD none = none) :
    (get_exchange_rates b tk s).1 = none ∧
    lookupCache ((get_exchange_rates b tk s).2).cache (b, tk) = some none ∧
    (get_exchange_rates b tk ((get_exchange_rates b tk s).2)).1 = none ∧
    (get_exchange_rates b tk ((get_exchange_rates b tk s).2)).2.calls =
      ((get_exchange_rates b tk s).2).calls ∧
    (get_exchange_rates b tk ((get_exchange_rates b tk s).2)).2.feed =
      ((get_exchange_rates b tk s).2).feed := by
  have h1 : (get_exchange_rates b tk s).1 = none := by
    rw [ger_miss hmiss]
    exact hfail
  have h2 : lookupCache ((get_exchange_rates b tk s).2).cache (b, tk) =
      some none := by
    have h := lookupCache_after_ger b tk s
    rw [h1] at h
    exact h
  refine ⟨h1, h2, ?_, ?_, ?_⟩ <;> rw [ger_hit h2]

/-- Witness for C1 (amended): on a fresh service whose provider fails
once, the failed `GBP` fetch in bucket `0` is memoized as `None` and the
retry is answered from the memo. -/
theorem provider_failure_is_cached_witness :
    lookupCache (initState [none]).cache ("GBP", 0) = none ∧
    (((initState [none]).feed.head?).getD none = none) ∧
    (get_exchange_rates "GBP" 0
      ((get_exchange_rates "GBP" 0 (initState [none])).2)).2.calls =
      ((get_exchange_rates "GBP" 0 (initState [none])).2).calls :=
  ⟨rfl, rfl,
    (provider_failure_is_cached "GBP" 0 (initState [none]) rfl rfl).2.2.2.1⟩

/-- Memo state after the failed `GBP` fetch of the counterexample run:
the failure is stored, the successful response is still unconsumed. -/
def failState : ServiceState :=
  { cache := [(("GBP", 0), none)]
    feed := [some stubTable]
    calls := [("GBP", 0)] }

/-- **C1 (counterexample).** A fresh service whose provider fails once and
would succeed on the next call: the first convert in bucket `0` fails and
memoizes `None`; the retry at instant `1` — same bucket — returns the
cached failure, with the call log still `[("GBP", 0)]` and the successful
provider response still unconsumed.  The claim that a retry in the same
bucket re-invokes the provider is false here: a second provider call would
have consumed the success. -/
theorem provider_failure_not_retried_cex :
    convert_currency "GBP" "USD" "100" 0 (initState [none, some stubTable]) =
      (.ratesUnavailable, failState) ∧
    convert_currency "GBP" "USD" "100" 1 failState =
      (.ratesUnavailable, failState) ∧
    failState.calls = [("GBP", 0)] ∧
    failState.feed = [some stubTable] ∧
    get_cache_key 1 = get_cache_key 0 := by
  refine ⟨?_, ?_, rfl, rfl, by decide⟩
  · have hger : get_exchange_rates (upperStr "GBP") (get_cache_key 0)
        (initState [none, some stubTable]) = (none, failState) := rfl
    rw [convert_fetch (by decide) (by decide) (by decide) pyFloat_100
      pyLeZero_100, hger]
  · have hger : get_exchange_rates (upperStr "GBP") (get_cache_key 1)
        failState = (none, failState) := rfl
    rw [convert_fetch (by decide) (by decide) (by decide) pyFloat_100
      pyLeZero_100, hger]

/- ------------------------------------------------------------------ -/
/- C4: validation order and short-circuiting                           -/
/- ------------------------------------------------------------------ -/

/-- **C4 (amended).** `convert_currency` validates in a fixed fail-fast
order: first that all three parameters are non-empty (else the
missing-parameters error), then the source code, then the target code
(each yielding the unsupported-currency error for the first unsupported
one), then the amount (yielding the invalid-amount error); on every
validation failure it returns with the service state untouched — no cache
write and no provider call. -/
theorem convert_validation_fail_fast
    (f t a : String) (n : Nat) (s : ServiceState) :
    ((upperStr f = "" ∨ upperStr t = "" ∨ a = "") →
        convert_currency f t a n s = (.missingParams, s)) ∧
    (¬ (upperStr f = "" ∨ upperStr t = "" ∨ a = "") →
      (validate_currency (upperStr f) = false →
          convert_currency f t a n s = (.unsupportedCurrency (upperStr f), s)) ∧
      (validate_currency (upperStr f) = true →
          validate_currency (upperStr t) = false →
          convert_currency f t a n s = (.unsupportedCurrency (upperStr t), s)) ∧
      (validate_currency (upperStr f) = true →
          validate_currency (upperStr t) = true →
        (pyFloat a = none →
            convert_currency f t a n s = (.invalidAmount, s)) ∧
        (∀ v, pyFloat a = some v → pyLeZero v = true →
            convert_currency f t a n s = (.invalidAmount, s)))) := by
  refine ⟨fun h1 => convert_missing h1, fun h1 => ⟨?_, ?_, ?_⟩⟩
  · exact fun h2 => convert_unsupported_from h1 h2
  · exact fun h2 h3 => convert_unsupported_to h1 h2 h3
  · exact fun h2 h3 =>
      ⟨fun h4 => convert_amount_unparsable h1 h2 h3 h4,
       fun v h4 h5 => convert_amount_nonpositive h1 h2 h3 h4 h5⟩

/-- Witness for C4 (amended): `convert("zz","USD","5")` fails on the
source code with the state untouched. -/
theorem convert_validation_fail_fast_witness :
    convert_currency "zz" "USD" "5" 0 (initState []) =
      (.unsupportedCurrency "ZZ", initState []) :=
  ((convert_validation_fail_fast "zz" "USD" "5" 0 (initState [])).2
    (by decide)).1 (by decide)

/-- **C4 (counterexample).** With an unsupported source code and an empty
amount, the code answers the missing-parameters error, not
`UnsupportedCurrency("ZZZ")` as the claimed order (source code checked
first, empty codes folded into the unsupported check) would demand. -/
theorem convert_validation_order_cex :
    (convert_currency "ZZZ" "USD" "" 0 (initState [])).1 = .missingParams ∧
    (convert_currency "ZZZ" "USD" "" 0 (initState [])).1 ≠
      .unsupportedCurrency "ZZZ" ∧
    validate_currency "ZZZ" = false := by
  have h : convert_currency "ZZZ" "USD" "" 0 (initState []) =
      (.missingParams, initState []) := convert_missing (by decide)
  refine ⟨by rw [h], by rw [h]; decide, by decide⟩

/- ------------------------------------------------------------------ -/
/- C5: which amounts are rejected                                      -/
/- ------------------------------------------------------------------ -/

/-- **C5 (amended).** For supported currencies and a non-empty amount
string, `convert_currency` answers the invalid-amount error exactly when
`float(amount_str)` raises (the string does not parse) or the parsed value
`v` satisfies the float comparison `v <= 0`.  Under that comparison `nan`
is *not* rejected — `nan <= 0` is false — so only parse failures, negative
and zero values (and negative infinity) are rejected; every strictly
positive finite amount passes validation. -/
theorem convert_invalid_amount_iff
    (f t a : String) (n : Nat) (s : ServiceState)
    (hf : validate_currency (upperStr f) = true)
    (ht : validate_currency (upperStr t) = true)
    (ha : a ≠ "") :
    (convert_currency f t a n s).1 = .invalidAmount ↔
      (pyFloat a = none ∨ ∃ v, pyFloat a = some v ∧ pyLeZero v = true) := by
  have h1 : ¬ (upperStr f = "" ∨ upperStr t = "" ∨ a = "") := by
    push_neg
    exact ⟨validate_nonempty hf, validate_nonempty ht, ha⟩
  rcases h4 : pyFloat a with _ | v
  · rw [convert_amount_unparsable h1 hf ht h4]
    simp
  · cases h5 : pyLeZero v with
    | true =>
        rw [convert_amount_nonpositive h1 hf ht h4 h5]
        exact iff_of_true rfl (Or.inr ⟨v, rfl, h5⟩)
    | false =>
        rw [convert_fetch h1 hf ht h4 h5]
        refine iff_of_false ?_ ?_
        · rcases hger : get_exchange_rates (upperStr f) (get_cache_key n) s
            with ⟨rv, s'⟩
          rcases rv with _ | T
          · simp [hger]
          · rcases htl : tableLookup T (upperStr t) with _ | rate <;>
              simp [hger, htl]
        · rintro (hn | ⟨v', hv', hl⟩)
          · exact Option.noConfusion hn
          · have : v' = v := by injection hv' with h; exact h.symm
            subst this
            rw [h5] at hl
            exact Bool.noConfusion hl

/-- Witness for C5 (amended): amount `"-5"` parses to `-5 <= 0` and is
rejected as an invalid amount. -/
theorem convert_invalid_amount_iff_witness :
    (convert_currency "GBP" "USD" "-5" 0 (initState [])).1 = .invalidAmount :=
  (convert_invalid_amount_iff "GBP" "USD" "-5" 0 (initState [])
      (by decide) (by decide) (by decide)).mpr
    (Or.inr ⟨.fin (-5), pyFloat_neg5, by norm_num [pyLeZero]⟩)

/-- **C5 (counterexample).** The amount string `"nan"` parses to a float
(`nan`) that is not strictly positive, yet validation passes — `nan <= 0`
is false — and the conversion proceeds all the way to a `nan`-valued
success response instead of the invalid-amount error the claim demands. -/
lemma pyFloat_nan : pyFloat "nan" = some PyVal.nan := rfl

lemma pyLeZero_nan : pyLeZero PyVal.nan = false := rfl

theorem convert_accepts_nan_cex :
    pyFloat "nan" = some PyVal.nan ∧
    (convert_currency "GBP" "USD" "nan" 0 (initState [some stubTable])).1 ≠
      .invalidAmount ∧
    (convert_currency "GBP" "USD" "nan" 0 (initState [some stubTable])).1 =
      .ok "GBP" PyVal.nan "USD" PyVal.nan (127/100) 0 := by
  have hger : get_exchange_rates (upperStr "GBP") (get_cache_key 0)
      (initState [some stubTable]) = (some stubTable, stateAfterFirst) := rfl
  have h : convert_currency "GBP" "USD" "nan" 0 (initState [some stubTable]) =
      (.ok "GBP" PyVal.nan "USD" PyVal.nan (127/100) 0, stateAfterFirst) := by
    rw [convert_fetch (by decide) (by decide) (by decide) pyFloat_nan
      pyLeZero_nan, hger]
    rfl
  refine ⟨rfl, by rw [h]; decide, by rw [h]⟩

/- ------------------------------------------------------------------ -/
/- C7: the rates endpoint filters to the supported set                 -/
/- ------------------------------------------------------------------ -/

/-- **C7.** For a supported base currency and any table the provider
returns, the rates endpoint answers exactly the entries of that table
whose key is in `SUPPORTED_CURRENCIES`; a pair is in the answer iff it is
an entry of the provider table with a supported key, so unsupported keys
never appear. -/
theorem rates_filtered_to_supported
    (b : Option String) (n : Nat) (s : ServiceState) (T : RateTable)
    (hv : validate_currency (upperStr (b.getD "GBP")) = true)
    (hT : (get_exchange_rates (upperStr (b.getD "GBP"))
        (get_cache_key n) s).1 = some T) :
    (get_rates b n s).1 =
      .ok (upperStr (b.getD "GBP"))
        (T.filter (fun p => decide (p.1 ∈ SUPPORTED_CURRENCIES))) n ∧
    ∀ p : String × ℚ,
      p ∈ T.filter (fun p => decide (p.1 ∈ SUPPORTED_CURRENCIES)) ↔
        p ∈ T ∧ p.1 ∈ SUPPORTED_CURRENCIES := by
  constructor
  · unfold get_rates
    rw [if_neg (by simp [hv])]
    rcases hger : get_exchange_rates (upperStr (b.getD "GBP"))
      (get_cache_key n) s with ⟨rv, s'⟩
    have hrv : rv = some T := by rw [hger] at hT; exact hT
    subst hrv
    simp [hger]
  · intro p
    simp [List.mem_filter]

/-- The stub table of the specification's filtering scenario: `XXX` is not
a supported currency. -/
def eurStubTable : RateTable := [("USD", 11/10), ("JPY", 160), ("XXX", 5)]

/-- Witness for C7: `listRates("EUR")` with stub table
`{USD: 1.1, JPY: 160.0, XXX: 5.0}` answers only the `USD` and `JPY`
entries. -/
theorem rates_filtered_to_supported_witness :
    validate_currency (upperStr "EUR") = true ∧
    (get_rates (some "EUR") 0 (initState [some eurStubTable])).1 =
      .ok "EUR" [("USD", 11/10), ("JPY", 160)] 0 := by
  have h := rates_filtered_to_supported (some "EUR") 0
    (initState [some eurStubTable]) eurStubTable (by decide) rfl
  refine ⟨by decide, ?_⟩
  rw [h.1]
  rfl

/- ------------------------------------------------------------------ -/
/- C10: the default base currency                                      -/
/- ------------------------------------------------------------------ -/

/-- **C10.** A rates request without a `base_currency` parameter does not
fail: it behaves exactly as a request for `GBP` — the default of
`request.args.get('base_currency', 'GBP')` — and in particular never
answers the unsupported-currency error. -/
theorem rates_default_base_gbp (n : Nat) (s : ServiceState) :
    get_rates none n s = get_rates (some "GBP") n s ∧
    ∀ c, (get_rates none n s).1 ≠ .unsupportedCurrency c := by
  refine ⟨rfl, ?_⟩
  intro c
  unfold get_rates
  rw [if_neg (by decide)]
  rcases hger : get_exchange_rates (upperStr "GBP") (get_cache_key n) s
    with ⟨rv, s'⟩
  rcases rv with _ | T <;> simp [hger]

/- ------------------------------------------------------------------ -/
/- C2: witness                                                         -/
/- ------------------------------------------------------------------ -/

/-- Witness for C2: three same-bucket requests — two identical converts
and a rates call for the same (differently-cased) base — on a fresh
service make at most one provider call for `("GBP", 0)`. -/
theorem provider_called_at_most_once_witness :
    (∀ r ∈ [Request.conv "GBP" "USD" "100" 0,
            Request.conv "GBP" "USD" "100" 60000000,
            Request.rates (some "gbp") 3599999999],
        get_cache_key r.now = 0) ∧
    ((runRequests
        [Request.conv "GBP" "USD" "100" 0,
         Request.conv "GBP" "USD" "100" 60000000,
         Request.rates (some "gbp") 3599999999]
        (initState [some stubTable])).calls.count ("GBP", 0) ≤ 1) :=
  ⟨by decide,
    provider_called_at_most_once_per_bucket _ _ 0 (by decide) ("GBP", 0)⟩

/-- Witness for C10: on a fresh service with no provider response, the
parameterless rates request is processed as `GBP` (and fails only with the
503 unavailability, never as an unsupported currency). -/
theorem rates_default_base_gbp_witness :
    get_rates none 0 (initState []) = get_rates (some "GBP") 0 (initState []) ∧
    (get_rates none 0 (initState [])).1 ≠ .unsupportedCurrency "GBP" :=
  ⟨(rates_default_base_gbp 0 (initState [])).1,
    (rates_default_base_gbp 0 (initState [])).2 "GBP"⟩
